import Mathlib

/-!
# Verification of the cubito ray tracer against its design specification

Shallow embedding of `src/main.rs` (functions `reflect`, `cast_shadow`,
`cast_ray`, `render`) and `src/material.rs` (the `Material` constructors).

Modelling conventions:
* `f32` values are modelled as exact rationals (`ℚ`); floating-point
  literals of the source (`1e-4`, `0.3`, `1.5`, `0.5`, `1e-3`) are exact
  in `ℚ`.
* `f32::sqrt` (used by `nalgebra_glm` for `normalize`/`magnitude` and by
  the refraction branch for `k.sqrt()`) has no exact rational counterpart,
  so every definition that needs it is parametrised by an abstract
  square-root operation `sqrt : ℚ → ℚ`; all theorems quantify over it.
* `tan` and `π` (used once by `render` for the perspective scale) are
  likewise abstract parameters of `render`.
* The files `color.rs`, `ray_intersect.rs`, `cube.rs`, `camera.rs`,
  `light.rs` and `framebuffer.rs` of the crate are not available; the
  corresponding types are modelled from the specification (see the
  doc comment of each such definition).
* Rust's `f32 as u32` cast, applied to the non-negative texture
  coordinates, truncates toward zero: modelled by `Int.floor` + `Int.toNat`.
* The `expect` panic of `Material::with_texture` is modelled as
  `Except.error`, and the external `image::open` as an abstract loader
  `String → Option Texture`.
-/

namespace Cubito

/-- A 3-component vector of rationals, modelling `nalgebra_glm::Vec3`. -/
structure Vec3 where
  x : ℚ
  y : ℚ
  z : ℚ
deriving DecidableEq

instance : Add Vec3 := ⟨fun a b => ⟨a.x + b.x, a.y + b.y, a.z + b.z⟩⟩

instance : Sub Vec3 := ⟨fun a b => ⟨a.x - b.x, a.y - b.y, a.z - b.z⟩⟩

instance : Neg Vec3 := ⟨fun a => ⟨-a.x, -a.y, -a.z⟩⟩

instance : HMul Vec3 ℚ Vec3 := ⟨fun a s => ⟨a.x * s, a.y * s, a.z * s⟩⟩

instance : HMul ℚ Vec3 Vec3 := ⟨fun s a => ⟨s * a.x, s * a.y, s * a.z⟩⟩

/-- Dot product of two vectors. -/
def dot (a b : Vec3) : ℚ :=
  a.x * b.x + a.y * b.y + a.z * b.z

/-- Squared magnitude of a vector. -/
def normSq (v : Vec3) : ℚ :=
  dot v v

/-- Magnitude of a vector, via the abstract square root. -/
def magnitude (sqrt : ℚ → ℚ) (v : Vec3) : ℚ :=
  sqrt (normSq v)

/-- Normalisation of a vector (division of each component by the
magnitude), via the abstract square root. -/
def normalize (sqrt : ℚ → ℚ) (v : Vec3) : Vec3 :=
  let m := magnitude sqrt v
  ⟨v.x / m, v.y / m, v.z / m⟩

/-- Modelled from the spec: `color.rs` is not under `src`. §3/§4.1 — three
floating channels; arithmetic is per-channel and unclamped. -/
structure Color where
  r : ℚ
  g : ℚ
  b : ℚ
deriving DecidableEq

/-- `Color::new`. -/
def Color.new (r g b : ℚ) : Color :=
  ⟨r, g, b⟩

instance : Add Color := ⟨fun a b => ⟨a.r + b.r, a.g + b.g, a.b + b.b⟩⟩

instance : HMul Color ℚ Color := ⟨fun c s => ⟨c.r * s, c.g * s, c.b * s⟩⟩

/-- Clamp-and-round of one channel for packing, per §4.1: round, then
clamp to `[0,255]`. -/
def clampByte (q : ℚ) : ℕ :=
  min 255 (max 0 (round q)).toNat

/-- Modelled from the spec: `color.rs` is not under `src`. §4.1 — pack a
color to `0xRRGGBB` by rounding and clamping each channel to `[0,255]`. -/
def Color.toHex (c : Color) : ℕ :=
  clampByte c.r * 65536 + clampByte c.g * 256 + clampByte c.b

/-- The external texture resource (`image::DynamicImage`), per §6/§9: a
decoded grid with queryable dimensions and nearest-pixel lookup. -/
structure Texture where
  width : ℕ
  height : ℕ
  pixel : ℕ → ℕ → Color

/-- `Material` from `src/material.rs`. The `f32` specular exponent (only
ever used as `powf` base exponent, with integral values in the program) is
modelled as a natural number; the two-element albedo array as a pair. -/
structure Material where
  diffuse : Color
  specular : ℕ
  albedo : ℚ × ℚ
  texture : Option Texture
  is_crystal : Bool

/-- `Material::new` from `src/material.rs`. -/
def Material.new (diffuse : Color) (specular : ℕ) (albedo : ℚ × ℚ) : Material :=
  { diffuse := diffuse, specular := specular, albedo := albedo,
    texture := none, is_crystal := false }

/-- `Material::crystal` from `src/material.rs`. -/
def Material.crystal (diffuse : Color) (specular : ℕ) (albedo : ℚ × ℚ) : Material :=
  { diffuse := diffuse, specular := specular, albedo := albedo,
    texture := none, is_crystal := true }

/-- `Material::black` from `src/material.rs`. -/
def Material.black : Material :=
  { diffuse := Color.new 0 0 0, specular := 0, albedo := (0, 0),
    texture := none, is_crystal := false }

/-- `Material::with_texture` from `src/material.rs`. The external
`image::open` is passed as an abstract loader, and the `expect` panic on a
failed load is modelled as `Except.error` with the source's message. -/
def Material.with_texture (imageOpen : String → Option Texture) (path : String)
    (specular : ℕ) (albedo : ℚ × ℚ) : Except String Material :=
  match imageOpen path with
  | none => Except.error "No se pudo cargar la textura"
  | some img =>
      Except.ok { diffuse := Color.new 255 255 255, specular := specular,
                  albedo := albedo, texture := some img, is_crystal := false }

/-- Modelled from the spec: `ray_intersect.rs` is not under `src`. §3 — the
intersection record: hit flag, hit point, surface normal, parametric
distance, material of the hit object, optional UV coordinates. -/
structure Intersect where
  isIntersecting : Bool
  point : Vec3
  normal : Vec3
  distance : ℚ
  material : Material
  uv : Option (ℚ × ℚ)

/-- `Intersect::empty`, the no-hit sentinel (§3: hit flag false; its
"distance = +∞" is modelled by the `Option ℚ` z-buffer of `sceneScan`,
since `ℚ` has no infinity — the sentinel's stored distance is never read). -/
def Intersect.empty : Intersect :=
  { isIntersecting := false, point := ⟨0, 0, 0⟩, normal := ⟨0, 0, 0⟩,
    distance := 0, material := Material.black, uv := none }

/-- Modelled from the spec: `cube.rs` is not under `src`. §4.2 gives its
contract — a geometric test producing an intersection record for a ray; the
shape is modelled by that test itself, so every theorem quantifies over all
geometries satisfying the record interface. -/
structure Cube where
  rayIntersect : Vec3 → Vec3 → Intersect

/-- Modelled from the spec: `light.rs` is not under `src`. §3 — point
light: position, color, non-negative intensity. -/
structure Light where
  position : Vec3
  color : Color
  intensity : ℚ

/-- Modelled from the spec: `camera.rs` is not under `src`. §3/§4.3 — the
camera is a position plus a basis-change operator taking camera-space
directions to world space; `render` uses nothing else of it. -/
structure Camera where
  position : Vec3
  basisChange : Vec3 → Vec3

/-- `SHADOW_BIAS` from `src/main.rs` line 25. -/
def SHADOW_BIAS : ℚ := 1e-4

/-- `MAX_RAY_DEPTH` from `src/main.rs` line 26. -/
def MAX_RAY_DEPTH : ℕ := 1

/-- `reflect` from `src/main.rs` lines 28–30:
`incident - 2.0 * incident.dot(normal) * normal`. -/
def reflect (incident : Vec3) (normal : Vec3) : Vec3 :=
  incident - (2 * dot incident normal) * normal

/-- The bias-offset secondary-ray origin, the pattern of `src/main.rs`
lines 41–45, 128–132 and 146–150: step off the surface along `±normal`
according to the side the direction points to. -/
def offsetPoint (point normal dir : Vec3) : Vec3 :=
  if dot dir normal < 0 then point - normal * SHADOW_BIAS
  else point + normal * SHADOW_BIAS

/-- The occluder test of the shadow loop, `src/main.rs` line 50:
`is_intersecting && distance > 1e-3 && distance < light_distance`. -/
def shadowHit (origin dir : Vec3) (light_distance : ℚ) (o : Cube) : Bool :=
  let si := o.rayIntersect origin dir
  si.isIntersecting && decide (si.distance > 1e-3) && decide (si.distance < light_distance)

/-- The soft shadow strength computed from the first occluder,
`src/main.rs` lines 51–52: `1.0 - (d / L).powf(2.0).min(1.0)`. -/
def shadowStrength (d L : ℚ) : ℚ :=
  1 - min ((d / L) ^ 2) 1

/-- The scan of `src/main.rs` lines 47–55: walk the objects in order and
take the shadow strength of the first occluder, stopping there. -/
def shadowLoop (objects : List Cube) (origin dir : Vec3) (light_distance : ℚ) : ℚ :=
  match objects with
  | [] => 0
  | o :: rest =>
      if shadowHit origin dir light_distance o then
        shadowStrength (o.rayIntersect origin dir).distance light_distance
      else shadowLoop rest origin dir light_distance

/-- `cast_shadow` from `src/main.rs` lines 32–57. -/
def cast_shadow (sqrt : ℚ → ℚ) (intersect : Intersect) (light : Light)
    (objects : List Cube) : ℚ :=
  let light_dir := normalize sqrt (light.position - intersect.point)
  let light_distance := magnitude sqrt (light.position - intersect.point)
  let shadow_ray_origin := offsetPoint intersect.point intersect.normal light_dir
  shadowLoop objects shadow_ray_origin light_dir light_distance

/-- The nearest-hit scan of `src/main.rs` lines 70–79: fold over the
objects keeping the current winning record and the z-buffer; the initial
`f32::INFINITY` z-buffer is the `none` of the `Option ℚ`, against which
every hit distance compares as smaller. -/
def sceneScan (objects : List Cube) (ray_origin ray_direction : Vec3) :
    Intersect × Option ℚ :=
  objects.foldl
    (fun st object =>
      let i := object.rayIntersect ray_origin ray_direction
      if i.isIntersecting && (match st.2 with
          | none => true
          | some zbuffer => decide (i.distance < zbuffer)) then
        (i, some i.distance)
      else st)
    (Intersect.empty, none)

/-- One texture pixel index from one clamped UV coordinate,
`src/main.rs` lines 95–96: `(u.clamp(0.0, 1.0) * (tw - 1) as f32) as u32`.
Rust's `clamp(0.0, 1.0)` is `min (max · 0) 1`; the `as u32` cast of the
non-negative product truncates toward zero (floor); the `u32` subtraction
`tw - 1` is ℕ-truncated subtraction. -/
def texelIndex (c : ℚ) (n : ℕ) : ℕ :=
  (⌊min (max c 0) 1 * ((n - 1 : ℕ) : ℚ)⌋).toNat

/-- The base-color resolution of `src/main.rs` lines 90–104: the texture
sample when the material has a texture and the hit carries UV, the
material's diffuse color otherwise. -/
def baseColor (intersect : Intersect) : Color :=
  match intersect.material.texture, intersect.uv with
  | some tex, some (u, v) =>
      let tx := texelIndex u tex.width
      let ty := texelIndex v tex.height
      let pixel := tex.pixel tx ty
      Color.new pixel.r pixel.g pixel.b
  | _, _ => intersect.material.diffuse

/-- The clamped incidence cosine of the refraction branch,
`src/main.rs` line 138: `(-ray_direction).dot(&normal).max(-1.0).min(1.0)`. -/
def refractCosi (ray_direction normal : Vec3) : ℚ :=
  min (max (dot (-ray_direction) normal) (-1)) 1

/-- The refraction discriminant of `src/main.rs` lines 139–143 with
`ior = 1.5`: `k = 1 - eta² (1 - cosi²)` where `eta` is `etat/etai` on exit
and `etai/etat` on entry. -/
def refractK (ray_direction normal : Vec3) : ℚ :=
  let cosi := refractCosi ray_direction normal
  let etai : ℚ := 1
  let etat : ℚ := 1.5
  let eta := if cosi < 0 then etat / etai else etai / etat
  1 - eta * eta * (1 - cosi * cosi)

/-- The refracted direction of `src/main.rs` line 145 (meaningful when the
discriminant is non-negative):
`normalize(ray_direction * eta + n * (eta * cosi - k.sqrt()))`. -/
def refractDir (sqrt : ℚ → ℚ) (ray_direction normal : Vec3) : Vec3 :=
  let cosi := refractCosi ray_direction normal
  let etai : ℚ := 1
  let etat : ℚ := 1.5
  let n := if cosi < 0 then -normal else normal
  let eta := if cosi < 0 then etat / etai else etai / etat
  let k := refractK ray_direction normal
  normalize sqrt (ray_direction * eta + n * (eta * cosi - sqrt k))

/-- The reflected-ray direction of the crystal branch, `src/main.rs`
line 127. -/
def crystalReflectDir (sqrt : ℚ → ℚ) (ray_direction normal : Vec3) : Vec3 :=
  normalize sqrt (reflect ray_direction normal)

/-- The body of `cast_ray` (`src/main.rs` lines 59–159), abstracted over
the recursive call `recur` (the source calls `cast_ray` at `depth + 1`;
`recur` already carries the incremented depth). -/
def castRayBody (sqrt : ℚ → ℚ) (objects : List Cube) (lights : List Light)
    (ray_origin ray_direction : Vec3) (depth : ℕ)
    (recur : Vec3 → Vec3 → Color) : Color :=
  if MAX_RAY_DEPTH < depth then Color.new 135 206 235
  else
    let intersect := (sceneScan objects ray_origin ray_direction).1
    if intersect.isIntersecting = false then Color.new 135 206 235
    else
      let view_dir := normalize sqrt (ray_origin - intersect.point)
      let base_color := baseColor intersect
      let ambient := base_color * (0.3 : ℚ)
      let lighting_color := lights.foldl
        (fun acc light =>
          let light_dir := normalize sqrt (light.position - intersect.point)
          let reflect_dir := reflect (-light_dir) intersect.normal
          let shadow_intensity := cast_shadow sqrt intersect light objects
          let lit_amount := 1 - shadow_intensity
          let diffuse_intensity := min (max (dot intersect.normal light_dir) 0) 1
          let diffuse := base_color * intersect.material.albedo.1 *
            diffuse_intensity * light.intensity * lit_amount
          let specular_intensity :=
            (max (dot view_dir reflect_dir) 0) ^ intersect.material.specular
          let specular := light.color * intersect.material.albedo.2 *
            specular_intensity * light.intensity * lit_amount
          acc + diffuse + specular)
        ambient
      if intersect.material.is_crystal then
        let reflect_dir := crystalReflectDir sqrt ray_direction intersect.normal
        let reflect_origin := offsetPoint intersect.point intersect.normal reflect_dir
        let reflect_color := recur reflect_origin reflect_dir
        let refract_color :=
          if 0 ≤ refractK ray_direction intersect.normal then
            let refract_dir := refractDir sqrt ray_direction intersect.normal
            let refract_origin := offsetPoint intersect.point intersect.normal refract_dir
            recur refract_origin refract_dir
          else Color.new 0 0 0
        let reflectance : ℚ := 0.5
        reflect_color * reflectance + refract_color * (1 - reflectance)
      else lighting_color

/-- Fuel-indexed evaluation of `cast_ray`. The fuel-0 base returns the
background color, which is what the source returns whenever fuel can run
out (fuel `MAX_RAY_DEPTH + 2 - depth` is 0 only for `depth > MAX_RAY_DEPTH + 1`,
where the depth guard fires); `castRay_eq` below proves the model satisfies
exactly the source's recurrence. -/
def castRayFuel (sqrt : ℚ → ℚ) (objects : List Cube) (lights : List Light) :
    ℕ → Vec3 → Vec3 → ℕ → Color
  | 0, _, _, _ => Color.new 135 206 235
  | fuel + 1, ray_origin, ray_direction, depth =>
      castRayBody sqrt objects lights ray_origin ray_direction depth
        (fun o d => castRayFuel sqrt objects lights fuel o d (depth + 1))

/-- `cast_ray` from `src/main.rs` lines 59–159. -/
def cast_ray (sqrt : ℚ → ℚ) (ray_origin ray_direction : Vec3)
    (objects : List Cube) (lights : List Light) (depth : ℕ) : Color :=
  castRayFuel sqrt objects lights (MAX_RAY_DEPTH + 2 - depth)
    ray_origin ray_direction depth

/-- `render` from `src/main.rs` lines 162–187, as the framebuffer contents
after a pass. Modelled from the spec where the source touches missing
files: `framebuffer.rs` is not under `src`; §6 describes the buffer as a
grid of packed values, and the source's `par_chunks_mut(width)` splits it
into rows, so the model is the row-major list of rows, each pixel written
independently (the rayon parallelism is deterministic per pixel). `PI` and
`tan` are abstract parameters (irrational); `aspect` is the source's
`aspect_ratio` local. -/
def render (sqrt : ℚ → ℚ) (pi : ℚ) (tan : ℚ → ℚ) (width height : ℕ)
    (camera : Camera) (objects : List Cube) (lights : List Light) :
    List (List ℕ) :=
  let widthF : ℚ := width
  let heightF : ℚ := height
  let aspect := widthF / heightF
  let fov := pi / 3
  let perspective_scale := tan (fov * 0.5)
  (List.range height).map (fun y : ℕ =>
    (List.range width).map (fun x : ℕ =>
      let screen_x := (2 * (x : ℚ)) / widthF - 1
      let screen_y := -(2 * (y : ℚ)) / heightF + 1
      let screen_x := screen_x * aspect * perspective_scale
      let screen_y := screen_y * perspective_scale
      let ray_direction := normalize sqrt ⟨screen_x, screen_y, -1⟩
      let rotated_direction := camera.basisChange ray_direction
      let pixel_color := cast_ray sqrt camera.position rotated_direction objects lights 0
      pixel_color.toHex))

/-- The per-light contribution exactly as the specification words it
(§4.4 step 5): diffuse
`base_color × albedo[0] × max(0, normal·light_dir) × intensity × (1 − shadow)`
(no clamp of the cosine at 1) and specular
`light.color × albedo[1] × max(0, view·reflect)^exponent × intensity × (1 − shadow)`.
Stated for comparison with the code path inside `castRayBody`. -/
def specLightTerm (sqrt : ℚ → ℚ) (intersect : Intersect) (base_color : Color)
    (view_dir : Vec3) (objects : List Cube) (light : Light) : Color :=
  let light_dir := normalize sqrt (light.position - intersect.point)
  let reflect_dir := reflect (-light_dir) intersect.normal
  let shadow_intensity := cast_shadow sqrt intersect light objects
  let diffuse := base_color * intersect.material.albedo.1 *
    max (dot intersect.normal light_dir) 0 * light.intensity * (1 - shadow_intensity)
  let specular := light.color * intersect.material.albedo.2 *
    ((max (dot view_dir reflect_dir) 0) ^ intersect.material.specular) *
    light.intensity * (1 - shadow_intensity)
  diffuse + specular

/-- The base-color rule exactly as claim C4 words it: the texture pixel
NEAREST to `(u·(width−1), v·(height−1))`, i.e. rounding the scaled
coordinate to the closest pixel index. Stated for comparison with
`baseColor`, which truncates. -/
def specNearestBaseColor (intersect : Intersect) : Color :=
  match intersect.material.texture, intersect.uv with
  | some tex, some (u, v) =>
      let tx := (round (u * ((tex.width - 1 : ℕ) : ℚ))).toNat
      let ty := (round (v * ((tex.height - 1 : ℕ) : ℚ))).toNat
      tex.pixel tx ty
  | _, _ => intersect.material.diffuse

/-- The amended base-color rule of C4: the texture pixel at the truncated
(floored) scaled clamped coordinates. -/
def specFloorBaseColor (intersect : Intersect) : Color :=
  match intersect.material.texture, intersect.uv with
  | some tex, some (u, v) =>
      tex.pixel (⌊min (max u 0) 1 * ((tex.width - 1 : ℕ) : ℚ)⌋).toNat
        (⌊min (max v 0) 1 * ((tex.height - 1 : ℕ) : ℚ)⌋).toNat
  | _, _ => intersect.material.diffuse

/-- The hit record selected by the nearest-hit scan (the `intersect` local
of `cast_ray`). -/
def hitOf (objects : List Cube) (ray_origin ray_direction : Vec3) : Intersect :=
  (sceneScan objects ray_origin ray_direction).1

/-- The `light_dir` local of `cast_shadow`. -/
def lightDirOf (sqrt : ℚ → ℚ) (intersect : Intersect) (light : Light) : Vec3 :=
  normalize sqrt (light.position - intersect.point)

/-- The `light_distance` local of `cast_shadow`. -/
def lightDistOf (sqrt : ℚ → ℚ) (intersect : Intersect) (light : Light) : ℚ :=
  magnitude sqrt (light.position - intersect.point)

/-- The `shadow_ray_origin` local of `cast_shadow`. -/
def shadowOriginOf (sqrt : ℚ → ℚ) (intersect : Intersect) (light : Light) : Vec3 :=
  offsetPoint intersect.point intersect.normal (lightDirOf sqrt intersect light)

/-! Concrete scene fixtures used by the evaluation witnesses and the
counterexample. The abstract square root is instantiated with the identity
(the witnesses are arranged so every magnitude that matters is 1). -/

/-- Identity stand-in for the abstract square root in concrete scenes. -/
def sqrtId : ℚ → ℚ := fun q => q

/-- The zero vector. -/
def v0 : Vec3 := ⟨0, 0, 0⟩

/-- A plain opaque hit record at the origin with normal `+Y`. -/
def itW : Intersect :=
  { isIntersecting := true, point := ⟨0, 0, 0⟩, normal := ⟨0, 1, 0⟩,
    distance := 1, material := Material.black, uv := none }

/-- A light one unit away from the fixture hit point along `+X`. -/
def lightW : Light :=
  { position := ⟨1, 0, 0⟩, color := Color.new 255 255 255, intensity := 1 }

/-- A degenerate shape whose geometric test always reports a hit at the
given parametric distance. -/
def occluderAt (d : ℚ) : Cube :=
  ⟨fun _ _ =>
    { isIntersecting := true, point := ⟨0, 0, 0⟩, normal := ⟨0, 1, 0⟩,
      distance := d, material := Material.black, uv := none }⟩

/-- Occluder fixture at distance `1/2`. -/
def cubeW : Cube := occluderAt (1 / 2)

/-- Occluder fixture at distance `3/4`. -/
def cubeW2 : Cube := occluderAt (3 / 4)

/-- A crystal material fixture. -/
def crystalMatW : Material := Material.crystal (Color.new 255 255 255) 10 (7 / 10, 3 / 10)

/-- A crystal hit record fixture with normal `+Z`. -/
def crystalHitW : Intersect :=
  { isIntersecting := true, point := ⟨0, 0, 0⟩, normal := ⟨0, 0, 1⟩,
    distance := 1, material := crystalMatW, uv := none }

/-- A shape always reporting the crystal hit. -/
def crystalCubeW : Cube := ⟨fun _ _ => crystalHitW⟩

/-- A shape always reporting the plain opaque hit `itW`. -/
def opaqueCubeW : Cube := ⟨fun _ _ => itW⟩

/-- Camera-like ray origin fixture. -/
def originW : Vec3 := ⟨0, 0, 5⟩

/-- Straight-down-the-axis ray direction fixture. -/
def dirW : Vec3 := ⟨0, 0, -1⟩

/-- A 2×1 texture whose two pixels differ. -/
def texC4 : Texture :=
  ⟨2, 1, fun tx _ => if tx = 0 then Color.new 10 20 30 else Color.new 200 100 50⟩

/-- A textured material fixture over `texC4`. -/
def matC4 : Material :=
  { diffuse := Color.new 1 2 3, specular := 1, albedo := (1, 1),
    texture := some texC4, is_crystal := false }

/-- A textured hit record with `u = 3/4`: the scaled coordinate `3/4`
truncates to pixel 0 but rounds to pixel 1. -/
def itC4 : Intersect :=
  { isIntersecting := true, point := ⟨0, 0, 0⟩, normal := ⟨0, 0, 1⟩,
    distance := 1, material := matC4, uv := some (3 / 4, 0) }

/-- A 1×1 texture fixture for the loader witness. -/
def texW : Texture := ⟨1, 1, fun _ _ => Color.new 0 0 0⟩

/-- Identity-basis camera fixture at `(0,0,5)`. -/
def camW : Camera := ⟨⟨0, 0, 5⟩, fun v => v⟩

/-! ## Helper lemmas (shared) -/

@[simp] theorem vec3_sub_def (a b : Vec3) : a - b = ⟨a.x - b.x, a.y - b.y, a.z - b.z⟩ := rfl

@[simp] theorem vec3_add_def (a b : Vec3) : a + b = ⟨a.x + b.x, a.y + b.y, a.z + b.z⟩ := rfl

@[simp] theorem vec3_neg_def (a : Vec3) : -a = ⟨-a.x, -a.y, -a.z⟩ := rfl

@[simp] theorem vec3_smul_def (a : Vec3) (s : ℚ) : a * s = ⟨a.x * s, a.y * s, a.z * s⟩ := rfl

@[simp] theorem vec3_smul_left_def (s : ℚ) (a : Vec3) : s * a = ⟨s * a.x, s * a.y, s * a.z⟩ := rfl

@[simp] theorem color_add_def (a b : Color) : a + b = ⟨a.r + b.r, a.g + b.g, a.b + b.b⟩ := rfl

@[simp] theorem color_smul_def (c : Color) (s : ℚ) : c * s = ⟨c.r * s, c.g * s, c.b * s⟩ := rfl

/-- The model satisfies exactly the source's recurrence: a `cast_ray` call
is one pass of the body, with the source's recursive `cast_ray` calls at
`depth + 1` at both secondary-ray sites. -/
theorem castRay_eq (sqrt : ℚ → ℚ) (ray_origin ray_direction : Vec3)
    (objects : List Cube) (lights : List Light) (depth : ℕ) :
    cast_ray sqrt ray_origin ray_direction objects lights depth =
      castRayBody sqrt objects lights ray_origin ray_direction depth
        (fun o d => cast_ray sqrt o d objects lights (depth + 1)) := by
  unfold cast_ray
  rcases Nat.lt_or_ge depth (MAX_RAY_DEPTH + 2) with h | h
  · have hfuel : MAX_RAY_DEPTH + 2 - depth = (MAX_RAY_DEPTH + 1 - depth) + 1 := by omega
    rw [hfuel]
    simp only [castRayFuel]
    congr 1
    funext o d
    congr 1
    omega
  · have hfuel : MAX_RAY_DEPTH + 2 - depth = 0 := by omega
    rw [hfuel]
    simp only [castRayFuel]
    unfold castRayBody
    rw [if_pos (by omega : MAX_RAY_DEPTH < depth)]

/-- A scan over objects that all miss leaves the empty sentinel and the
infinite z-buffer. -/
theorem sceneScan_of_miss (objects : List Cube) (o d : Vec3)
    (h : ∀ c ∈ objects, (c.rayIntersect o d).isIntersecting = false) :
    sceneScan objects o d = (Intersect.empty, none) := by
  have key : ∀ (l : List Cube) (st : Intersect × Option ℚ),
      (∀ c ∈ l, (c.rayIntersect o d).isIntersecting = false) →
      l.foldl (fun st object =>
        let i := object.rayIntersect o d
        if i.isIntersecting && (match st.2 with
            | none => true
            | some zbuffer => decide (i.distance < zbuffer)) then
          (i, some i.distance)
        else st) st = st := by
    intro l
    induction l with
    | nil => intro st _; rfl
    | cons c rest ih =>
        intro st hall
        simp only [List.foldl_cons]
        rw [hall c (List.mem_cons_self c rest)]
        simp only [Bool.false_and, Bool.false_eq_true, if_false]
        exact ih st (fun c2 hc2 => hall c2 (List.mem_cons_of_mem c hc2))
  exact key objects _ h

/-! ## C2 — background fallback -/

/-- C2: every `cast_ray` call past the depth bound, and every call whose
ray misses every object of the scene list, returns exactly the fixed
background color `(135, 206, 235)`, independently of origin, direction,
lights and objects. -/
theorem castRay_background (sqrt : ℚ → ℚ) (ray_origin ray_direction : Vec3)
    (objects : List Cube) (lights : List Light) (depth : ℕ)
    (h : MAX_RAY_DEPTH < depth ∨
      ∀ c ∈ objects, (c.rayIntersect ray_origin ray_direction).isIntersecting = false) :
    cast_ray sqrt ray_origin ray_direction objects lights depth =
      Color.new 135 206 235 := by
  rw [castRay_eq]
  unfold castRayBody
  rcases h with h | h
  · rw [if_pos h]
  · by_cases hd : MAX_RAY_DEPTH < depth
    · rw [if_pos hd]
    · rw [if_neg hd]
      have hscan := sceneScan_of_miss objects ray_origin ray_direction h
      simp only [hscan]
      rfl

/-- Witness for C2 at a concrete input: depth 2 exceeds the bound 1, and
an empty scene misses trivially. -/
theorem castRay_background_witness :
    cast_ray sqrtId v0 dirW [] [] 2 = Color.new 135 206 235 :=
  castRay_background sqrtId v0 dirW [] [] 2 (Or.inl (by decide))

/-! ## C8 — termination under the depth bound -/

/-- C8: `cast_ray` terminates with work bounded by the depth bound — every
recursive call is at `depth + 1`, calls past the bound return immediately,
and consequently `MAX_RAY_DEPTH + 2 - depth` recursion levels of fuel
already compute the fixed point: any fuel supply covering the bound gives
the same answer as `cast_ray` itself. -/
theorem castRay_depth_bounded (sqrt : ℚ → ℚ) (objects : List Cube)
    (lights : List Light) :
    ∀ (fuel depth : ℕ), MAX_RAY_DEPTH + 2 ≤ fuel + depth →
    ∀ (ray_origin ray_direction : Vec3),
      castRayFuel sqrt objects lights fuel ray_origin ray_direction depth =
        cast_ray sqrt ray_origin ray_direction objects lights depth := by
  intro fuel
  induction fuel with
  | zero =>
      intro depth h o d
      unfold cast_ray
      have h0 : MAX_RAY_DEPTH + 2 - depth = 0 := by omega
      rw [h0]
  | succ f ih =>
      intro depth h o d
      rw [castRay_eq]
      simp only [castRayFuel]
      congr 1
      funext o2 d2
      exact ih (depth + 1) (by omega) o2 d2

/-- Witness for C8: fuel 3 covers the bound at depth 0 for a concrete
scene. -/
theorem castRay_depth_bounded_witness :
    castRayFuel sqrtId [crystalCubeW] [] 3 originW dirW 0 =
      cast_ray sqrtId originW dirW [crystalCubeW] [] 0 :=
  castRay_depth_bounded sqrtId [crystalCubeW] [] 3 0 (by decide) originW dirW

/-! ## C1 — crystal 50/50 reflect/refract split -/

/-- C1: a hit on a crystal material within the depth bound returns exactly
half the recursive reflected color plus half the recursive refracted
color, the refracted half being black when the refraction discriminant is
negative; the locally computed ambient/diffuse/specular color is absent
from the result. -/
theorem castRay_crystal (sqrt : ℚ → ℚ) (ray_origin ray_direction : Vec3)
    (objects : List Cube) (lights : List Light) (depth : ℕ)
    (hd : depth ≤ MAX_RAY_DEPTH)
    (hhit : (hitOf objects ray_origin ray_direction).isIntersecting = true)
    (hc : (hitOf objects ray_origin ray_direction).material.is_crystal = true) :
    cast_ray sqrt ray_origin ray_direction objects lights depth =
      cast_ray sqrt
        (offsetPoint (hitOf objects ray_origin ray_direction).point
          (hitOf objects ray_origin ray_direction).normal
          (crystalReflectDir sqrt ray_direction
            (hitOf objects ray_origin ray_direction).normal))
        (crystalReflectDir sqrt ray_direction
          (hitOf objects ray_origin ray_direction).normal)
        objects lights (depth + 1) * (0.5 : ℚ) +
      (if 0 ≤ refractK ray_direction (hitOf objects ray_origin ray_direction).normal then
        cast_ray sqrt
          (offsetPoint (hitOf objects ray_origin ray_direction).point
            (hitOf objects ray_origin ray_direction).normal
            (refractDir sqrt ray_direction
              (hitOf objects ray_origin ray_direction).normal))
          (refractDir sqrt ray_direction
            (hitOf objects ray_origin ray_direction).normal)
          objects lights (depth + 1)
      else Color.new 0 0 0) * (0.5 : ℚ) := by
  rw [castRay_eq]
  unfold castRayBody hitOf at *
  rw [if_neg (by omega : ¬ MAX_RAY_DEPTH < depth)]
  simp only [hhit, hc]
  norm_num

/-- Witness for C1: a crystal hit at depth 0 in a concrete scene. -/
theorem castRay_crystal_witness :
    cast_ray sqrtId originW dirW [crystalCubeW] [] 0 =
      cast_ray sqrtId
        (offsetPoint (hitOf [crystalCubeW] originW dirW).point
          (hitOf [crystalCubeW] originW dirW).normal
          (crystalReflectDir sqrtId dirW (hitOf [crystalCubeW] originW dirW).normal))
        (crystalReflectDir sqrtId dirW (hitOf [crystalCubeW] originW dirW).normal)
        [crystalCubeW] [] 1 * (0.5 : ℚ) +
      (if 0 ≤ refractK dirW (hitOf [crystalCubeW] originW dirW).normal then
        cast_ray sqrtId
          (offsetPoint (hitOf [crystalCubeW] originW dirW).point
            (hitOf [crystalCubeW] originW dirW).normal
            (refractDir sqrtId dirW (hitOf [crystalCubeW] originW dirW).normal))
          (refractDir sqrtId dirW (hitOf [crystalCubeW] originW dirW).normal)
          [crystalCubeW] [] 1
      else Color.new 0 0 0) * (0.5 : ℚ) :=
  castRay_crystal sqrtId originW dirW [crystalCubeW] [] 0 (by decide) (by decide)
    (by decide)

/-! ## C3 — cast_shadow: range, miss case, first occluder -/

/-- The shadow strength is never negative. -/
theorem shadowStrength_nonneg (d L : ℚ) : 0 ≤ shadowStrength d L := by
  unfold shadowStrength
  have h := min_le_right ((d / L) ^ 2) (1 : ℚ)
  linarith

/-- The shadow strength never exceeds one. -/
theorem shadowStrength_le_one (d L : ℚ) : shadowStrength d L ≤ 1 := by
  unfold shadowStrength
  have h0 : (0 : ℚ) ≤ (d / L) ^ 2 := sq_nonneg _
  have h := le_min h0 (by norm_num : (0 : ℚ) ≤ 1)
  linarith

/-- The code's `1 - min((d/L)², 1)` is the claim's `1 - (d/L)²` clamped to
`[0,1]`. -/
theorem shadowStrength_eq_clamp (d L : ℚ) :
    shadowStrength d L = max 0 (min 1 (1 - (d / L) ^ 2)) := by
  unfold shadowStrength
  have h0 : (0 : ℚ) ≤ (d / L) ^ 2 := sq_nonneg _
  rcases le_total ((d / L) ^ 2) 1 with h | h
  · rw [min_eq_left h, min_eq_right (by linarith : 1 - (d / L) ^ 2 ≤ 1),
      max_eq_right (by linarith)]
  · rw [min_eq_right h, min_eq_right (by linarith : 1 - (d / L) ^ 2 ≤ 1),
      max_eq_left (by linarith)]
    norm_num

/-- A shadow scan over objects that produce no qualifying occluder
returns zero. -/
theorem shadowLoop_of_no_hit (objects : List Cube) (origin dir : Vec3) (L : ℚ)
    (h : ∀ c ∈ objects, shadowHit origin dir L c = false) :
    shadowLoop objects origin dir L = 0 := by
  induction objects with
  | nil => rfl
  | cons c rest ih =>
      simp only [shadowLoop, h c (List.mem_cons_self c rest), Bool.false_eq_true, if_false]
      exact ih (fun c2 hc2 => h c2 (List.mem_cons_of_mem c hc2))

/-- The shadow scan stops at the first qualifying occluder and reports its
strength, whatever follows it. -/
theorem shadowLoop_first_hit (pre : List Cube) (o : Cube) (post : List Cube)
    (origin dir : Vec3) (L : ℚ)
    (hpre : ∀ c ∈ pre, shadowHit origin dir L c = false)
    (ho : shadowHit origin dir L o = true) :
    shadowLoop (pre ++ o :: post) origin dir L =
      shadowStrength (o.rayIntersect origin dir).distance L := by
  induction pre with
  | nil => simp only [List.nil_append, shadowLoop, ho, if_true]
  | cons c rest ih =>
      simp only [List.cons_append, shadowLoop,
        hpre c (List.mem_cons_self c rest), Bool.false_eq_true, if_false]
      exact ih (fun c2 hc2 => hpre c2 (List.mem_cons_of_mem c hc2))

/-- The shadow scan stays within `[0, 1]` whatever the objects return. -/
theorem shadowLoop_mem_unit (objects : List Cube) (origin dir : Vec3) (L : ℚ) :
    0 ≤ shadowLoop objects origin dir L ∧ shadowLoop objects origin dir L ≤ 1 := by
  induction objects with
  | nil => simp only [shadowLoop]; norm_num
  | cons c rest ih =>
      simp only [shadowLoop]
      by_cases hc : shadowHit origin dir L c = true
      · rw [if_pos hc]
        exact ⟨shadowStrength_nonneg _ _, shadowStrength_le_one _ _⟩
      · rw [if_neg hc]
        exact ih

/-- C3: `cast_shadow` always lands in `[0,1]`; it returns 0 when no object
in list order intersects the bias-offset shadow ray strictly between the
`1e-3` epsilon and the light's distance; and otherwise it returns
`1 − (occluder_distance / light_distance)²` clamped to `[0,1]`, computed
from the first qualifying occluder in list order, ignoring everything that
follows it. -/
theorem cast_shadow_spec (sqrt : ℚ → ℚ) (intersect : Intersect) (light : Light)
    (objects : List Cube) :
    (0 ≤ cast_shadow sqrt intersect light objects ∧
      cast_shadow sqrt intersect light objects ≤ 1) ∧
    ((∀ c ∈ objects, shadowHit (shadowOriginOf sqrt intersect light)
        (lightDirOf sqrt intersect light) (lightDistOf sqrt intersect light) c = false) →
      cast_shadow sqrt intersect light objects = 0) ∧
    (∀ (pre : List Cube) (o : Cube) (post : List Cube),
      objects = pre ++ o :: post →
      (∀ c ∈ pre, shadowHit (shadowOriginOf sqrt intersect light)
        (lightDirOf sqrt intersect light) (lightDistOf sqrt intersect light) c = false) →
      shadowHit (shadowOriginOf sqrt intersect light) (lightDirOf sqrt intersect light)
        (lightDistOf sqrt intersect light) o = true →
      cast_shadow sqrt intersect light objects =
        max 0 (min 1 (1 - ((o.rayIntersect (shadowOriginOf sqrt intersect light)
          (lightDirOf sqrt intersect light)).distance /
            lightDistOf sqrt intersect light) ^ 2))) := by
  have hcs : cast_shadow sqrt intersect light objects =
      shadowLoop objects (shadowOriginOf sqrt intersect light)
        (lightDirOf sqrt intersect light) (lightDistOf sqrt intersect light) := rfl
  refine ⟨?_, ?_, ?_⟩
  · rw [hcs]; exact shadowLoop_mem_unit _ _ _ _
  · intro h
    rw [hcs]
    exact shadowLoop_of_no_hit _ _ _ _ h
  · intro pre o post hobj hpre ho
    rw [hcs, hobj, shadowLoop_first_hit pre o post _ _ _ hpre ho,
      shadowStrength_eq_clamp]

/-- Witness for C3: a single occluder halfway to the light yields the
clamped quadratic falloff. -/
theorem cast_shadow_spec_witness :
    cast_shadow sqrtId itW lightW [cubeW] =
      max 0 (min 1 (1 - ((cubeW.rayIntersect (shadowOriginOf sqrtId itW lightW)
        (lightDirOf sqrtId itW lightW)).distance / lightDistOf sqrtId itW lightW) ^ 2)) :=
  (cast_shadow_spec sqrtId itW lightW [cubeW]).2.2 [] cubeW [] rfl (by simp)
    (by norm_num [shadowHit, cubeW, occluderAt, shadowOriginOf, lightDirOf, lightDistOf,
      offsetPoint, normalize, magnitude, normSq, dot, sqrtId, itW, lightW])

/-! ## C6 — shadow monotonicity in the occluder distance -/

/-- The falloff formula is non-increasing in the occluder distance on
`(0, L)`. -/
theorem shadowStrength_antitone (d1 d2 L : ℚ) (h0 : 0 < d1) (h12 : d1 ≤ d2)
    (h2L : d2 < L) : shadowStrength d2 L ≤ shadowStrength d1 L := by
  have hL : 0 < L := by linarith
  unfold shadowStrength
  have hr : d1 / L ≤ d2 / L := by gcongr
  have hr0 : 0 ≤ d1 / L := by positivity
  have hsq : (d1 / L) ^ 2 ≤ (d2 / L) ^ 2 := pow_le_pow_left₀ hr0 hr 2
  have hmin := min_le_min hsq (le_refl (1 : ℚ))
  linarith

/-- C6: with the hit point and light fixed, an occluder intersecting the
shadow ray closer to the shaded point never casts a weaker shadow than one
farther along (both within the qualifying band): the intensity
`1 − (d/L)²` is non-increasing in the occluder distance `d`. -/
theorem cast_shadow_monotone (sqrt : ℚ → ℚ) (intersect : Intersect) (light : Light)
    (c1 c2 : Cube)
    (h1 : shadowHit (shadowOriginOf sqrt intersect light)
      (lightDirOf sqrt intersect light) (lightDistOf sqrt intersect light) c1 = true)
    (h2 : shadowHit (shadowOriginOf sqrt intersect light)
      (lightDirOf sqrt intersect light) (lightDistOf sqrt intersect light) c2 = true)
    (hd : (c1.rayIntersect (shadowOriginOf sqrt intersect light)
        (lightDirOf sqrt intersect light)).distance ≤
      (c2.rayIntersect (shadowOriginOf sqrt intersect light)
        (lightDirOf sqrt intersect light)).distance) :
    cast_shadow sqrt intersect light [c2] ≤ cast_shadow sqrt intersect light [c1] := by
  have key : ∀ c : Cube, shadowHit (shadowOriginOf sqrt intersect light)
      (lightDirOf sqrt intersect light) (lightDistOf sqrt intersect light) c = true →
      cast_shadow sqrt intersect light [c] =
        shadowStrength (c.rayIntersect (shadowOriginOf sqrt intersect light)
          (lightDirOf sqrt intersect light)).distance
          (lightDistOf sqrt intersect light) := by
    intro c hc
    show shadowLoop [c] (shadowOriginOf sqrt intersect light)
      (lightDirOf sqrt intersect light) (lightDistOf sqrt intersect light) = _
    simp only [shadowLoop, hc, if_true]
  rw [key c1 h1, key c2 h2]
  simp only [shadowHit, Bool.and_eq_true, decide_eq_true_eq] at h1 h2
  have hband : (0 : ℚ) < 1e-3 := by norm_num
  exact shadowStrength_antitone _ _ _ (lt_trans hband h1.1.2) hd h2.2

/-- Witness for C6: occluders at distances `1/2` and `3/4` of the same
unit-distance light. -/
theorem cast_shadow_monotone_witness :
    cast_shadow sqrtId itW lightW [cubeW2] ≤ cast_shadow sqrtId itW lightW [cubeW] :=
  cast_shadow_monotone sqrtId itW lightW cubeW cubeW2
    (by norm_num [shadowHit, cubeW, occluderAt, shadowOriginOf, lightDirOf, lightDistOf,
      offsetPoint, normalize, magnitude, normSq, dot, sqrtId, itW, lightW])
    (by norm_num [shadowHit, cubeW2, occluderAt, shadowOriginOf, lightDirOf, lightDistOf,
      offsetPoint, normalize, magnitude, normSq, dot, sqrtId, itW, lightW])
    (by norm_num [cubeW, cubeW2, occluderAt])

/-! ## C4 — texture sampling: truncation, not nearest -/

/-- Counterexample for C4 as stated: at `u = 3/4` on a 2×1 texture, the
scaled coordinate `u·(width−1) = 3/4` rounds to pixel 1 but the code
truncates to pixel 0, so the base color is not the nearest pixel. -/
theorem baseColor_not_nearest : baseColor itC4 ≠ specNearestBaseColor itC4 := by
  norm_num [baseColor, specNearestBaseColor, itC4, matC4, texC4, texelIndex, Color.new,
    round_eq]

/-- C4 (amended): the base color is the texture pixel at the truncated
(floored) scaled clamped UV coordinates when the material has a texture
and the hit carries UV, and the material's base diffuse color otherwise. -/
theorem baseColor_eq_floor (intersect : Intersect) :
    baseColor intersect = specFloorBaseColor intersect := by
  unfold baseColor specFloorBaseColor texelIndex
  rcases htex : intersect.material.texture with _ | tex
  · simp only [htex]
  · rcases huv : intersect.uv with _ | ⟨u, v⟩
    · simp only [htex, huv]
    · simp only [htex, huv, Color.new]

/-! ## C5 — opaque shading: ambient once plus per-light diffuse/specular -/

/-- Folding equal step functions gives equal folds. -/
theorem foldl_congr_mem {α β : Type} (l : List α) (f g : β → α → β) (b : β)
    (h : ∀ b2, ∀ a ∈ l, f b2 a = g b2 a) : l.foldl f b = l.foldl g b := by
  induction l generalizing b with
  | nil => rfl
  | cons a rest ih =>
      simp only [List.foldl_cons]
      rw [h b a (List.mem_cons_self a rest)]
      exact ih _ (fun b2 a2 ha2 => h b2 a2 (List.mem_cons_of_mem a ha2))

/-- Color addition is associative. -/
theorem color_add_assoc3 (a b c : Color) : a + b + c = a + (b + c) := by
  simp only [color_add_def, Color.mk.injEq]
  refine ⟨by ring, by ring, by ring⟩

/-- C5: a hit on a non-crystal material within the depth bound returns the
ambient term `0.3 × base_color` counted once, plus, folded over the lights
in order, a diffuse term
`base_color × albedo[0] × max(0, normal·light_dir) × intensity × (1 − shadow)`
and a specular term
`light.color × albedo[1] × max(0, view·reflect)^exponent × intensity × (1 − shadow)`
colored by the light's own color. The cosine hypothesis `n·l ≤ 1` is the
data-model invariant (unit normal, normalized light direction), under which
the code's extra `min(·,1)` clamp coincides with the claim's `max(0,·)`. -/
theorem castRay_noncrystal (sqrt : ℚ → ℚ) (ray_origin ray_direction : Vec3)
    (objects : List Cube) (lights : List Light) (depth : ℕ)
    (hd : depth ≤ MAX_RAY_DEPTH)
    (hhit : (hitOf objects ray_origin ray_direction).isIntersecting = true)
    (hnc : (hitOf objects ray_origin ray_direction).material.is_crystal = false)
    (hcos : ∀ l ∈ lights, dot (hitOf objects ray_origin ray_direction).normal
      (normalize sqrt (l.position - (hitOf objects ray_origin ray_direction).point)) ≤ 1) :
    cast_ray sqrt ray_origin ray_direction objects lights depth =
      lights.foldl
        (fun acc l => acc + specLightTerm sqrt (hitOf objects ray_origin ray_direction)
          (baseColor (hitOf objects ray_origin ray_direction))
          (normalize sqrt (ray_origin - (hitOf objects ray_origin ray_direction).point))
          objects l)
        (baseColor (hitOf objects ray_origin ray_direction) * (0.3 : ℚ)) := by
  rw [castRay_eq]
  unfold castRayBody hitOf at *
  rw [if_neg (by omega : ¬ MAX_RAY_DEPTH < depth)]
  simp only [hhit, hnc, Bool.false_eq_true, Bool.true_eq_false, if_false]
  apply foldl_congr_mem
  intro acc l hl
  have hle := hcos l hl
  simp only [specLightTerm]
  rw [min_eq_left (max_le hle zero_le_one)]
  exact color_add_assoc3 _ _ _

/-- Witness for C5: one opaque hit, one light, depth 0. -/
theorem castRay_noncrystal_witness :
    cast_ray sqrtId originW dirW [opaqueCubeW] [lightW] 0 =
      [lightW].foldl
        (fun acc l => acc + specLightTerm sqrtId (hitOf [opaqueCubeW] originW dirW)
          (baseColor (hitOf [opaqueCubeW] originW dirW))
          (normalize sqrtId (originW - (hitOf [opaqueCubeW] originW dirW).point))
          [opaqueCubeW] l)
        (baseColor (hitOf [opaqueCubeW] originW dirW) * (0.3 : ℚ)) :=
  castRay_noncrystal sqrtId originW dirW [opaqueCubeW] [lightW] 0 (by decide) (by decide)
    (by decide)
    (by
      intro l hl
      rw [List.mem_singleton] at hl
      subst hl
      show dot itW.normal (normalize sqrtId (lightW.position - itW.point)) ≤ 1
      norm_num [dot, normalize, magnitude, normSq, sqrtId, itW, lightW])

/-! ## C7 — per-pixel ray setup of the render driver -/

/-- C7: every in-range pixel `(x, y)` of the produced framebuffer holds the
packed color of `cast_ray` launched from the camera position with depth 0,
along the camera-basis transform of the normalized camera-space direction
`(screen_x, screen_y, −1)`, where
`screen_x = ((2x/width) − 1) · (width/height) · tan(fov/2)` and
`screen_y = (−(2y/height) + 1) · tan(fov/2)` with `fov = π/3`. -/
theorem render_pixel (sqrt : ℚ → ℚ) (pi : ℚ) (tan : ℚ → ℚ) (width height : ℕ)
    (camera : Camera) (objects : List Cube) (lights : List Light)
    (x y : ℕ) (hx : x < width) (hy : y < height) :
    ((render sqrt pi tan width height camera objects lights).getD y []).getD x 0 =
      (cast_ray sqrt camera.position
        (camera.basisChange (normalize sqrt
          ⟨((2 * (x : ℚ)) / (width : ℚ) - 1) * ((width : ℚ) / (height : ℚ)) * tan (pi / 3 / 2),
            (-(2 * (y : ℚ)) / (height : ℚ) + 1) * tan (pi / 3 / 2), -1⟩))
        objects lights 0).toHex := by
  have h2 : pi / 3 * (0.5 : ℚ) = pi / 3 / 2 := by ring
  simp only [render, List.getD_eq_getElem?_getD]
  rw [List.getElem?_map, List.getElem?_range hy]
  simp only [Option.map_some', Option.getD_some]
  rw [List.getElem?_map, List.getElem?_range hx]
  simp only [Option.map_some', Option.getD_some, h2]

/-- Witness for C7: the single pixel of a 1×1 framebuffer over an empty
scene. -/
theorem render_pixel_witness :
    ((render sqrtId 0 (fun q => q) 1 1 camW [] []).getD 0 []).getD 0 0 =
      (cast_ray sqrtId camW.position
        (camW.basisChange (normalize sqrtId
          ⟨((2 * ((0 : ℕ) : ℚ)) / ((1 : ℕ) : ℚ) - 1) * (((1 : ℕ) : ℚ) / ((1 : ℕ) : ℚ)) *
              ((fun q => q) ((0 : ℚ) / 3 / 2)),
            (-(2 * ((0 : ℕ) : ℚ)) / ((1 : ℕ) : ℚ) + 1) * ((fun q => q) ((0 : ℚ) / 3 / 2)),
            -1⟩))
        [] [] 0).toHex :=
  render_pixel sqrtId 0 (fun q => q) 1 1 camW [] [] 0 0 (by decide) (by decide)

/-! ## C9 — texture loading is construction-time -/

/-- C9: `Material::with_texture` resolves the texture resource eagerly at
construction: a failed load fails right there (the source's `expect`
panic, modelled as the error case) and a successful load stores the
decoded image in the material, which is all `cast_ray`/`render` ever read
(neither takes a loader). -/
theorem with_texture_spec (imageOpen : String → Option Texture) (path : String)
    (specular : ℕ) (albedo : ℚ × ℚ) :
    (imageOpen path = none →
      Material.with_texture imageOpen path specular albedo =
        Except.error "No se pudo cargar la textura") ∧
    (∀ img, imageOpen path = some img →
      Material.with_texture imageOpen path specular albedo =
        Except.ok { diffuse := Color.new 255 255 255, specular := specular,
                    albedo := albedo, texture := some img, is_crystal := false }) := by
  constructor
  · intro h
    unfold Material.with_texture
    rw [h]
  · intro img h
    unfold Material.with_texture
    rw [h]

/-- Witness for C9: a loader that succeeds yields the material with the
loaded image stored. -/
theorem with_texture_spec_witness :
    Material.with_texture (fun _ => some texW) "assets/flores.webp" 80 (7 / 10, 3 / 10) =
      Except.ok { diffuse := Color.new 255 255 255, specular := 80,
                  albedo := (7 / 10, 3 / 10), texture := some texW, is_crystal := false } :=
  (with_texture_spec (fun _ => some texW) "assets/flores.webp" 80 (7 / 10, 3 / 10)).2
    texW rfl

/-! ## C10 — texture lookup never reads out of bounds -/

/-- The scaled clamped coordinate never exceeds the last pixel index. -/
theorem texelIndex_le (c : ℚ) (n : ℕ) : texelIndex c n ≤ n - 1 := by
  unfold texelIndex
  have hc1 : min (max c 0) 1 ≤ 1 := min_le_right _ _
  have hnn : (0 : ℚ) ≤ ((n - 1 : ℕ) : ℚ) := Nat.cast_nonneg _
  have hprod : min (max c 0) 1 * ((n - 1 : ℕ) : ℚ) ≤ ((n - 1 : ℕ) : ℚ) :=
    mul_le_of_le_one_left hnn hc1
  have hfloor : ⌊min (max c 0) 1 * ((n - 1 : ℕ) : ℚ)⌋ ≤ ((n - 1 : ℕ) : ℤ) := by
    calc ⌊min (max c 0) 1 * ((n - 1 : ℕ) : ℚ)⌋ ≤ ⌊((n - 1 : ℕ) : ℚ)⌋ :=
          Int.floor_le_floor hprod
      _ = ((n - 1 : ℕ) : ℤ) := Int.floor_natCast _
  exact Int.toNat_le.mpr hfloor

/-- C10: for every rational UV pair, including values outside `[0,1]`, the
texture pixel indices computed by the sampling code satisfy
`0 ≤ tx ≤ width − 1` and `0 ≤ ty ≤ height − 1` whenever the dimensions are
at least 1, because the coordinates are clamped to `[0,1]` before
scaling — the lookup never reads out of bounds. -/
theorem texelIndex_bounds (u v : ℚ) (w h : ℕ) (hw : 1 ≤ w) (hh : 1 ≤ h) :
    (0 ≤ texelIndex u w ∧ texelIndex u w ≤ w - 1) ∧
    (0 ≤ texelIndex v h ∧ texelIndex v h ≤ h - 1) :=
  ⟨⟨Nat.zero_le _, texelIndex_le u w⟩, ⟨Nat.zero_le _, texelIndex_le v h⟩⟩

/-- Witness for C10: an out-of-range `u` and an in-range `v` on a 2×2
texture. -/
theorem texelIndex_bounds_witness :
    (0 ≤ texelIndex (7 / 2) 2 ∧ texelIndex (7 / 2) 2 ≤ 2 - 1) ∧
    (0 ≤ texelIndex (1 / 2) 2 ∧ texelIndex (1 / 2) 2 ≤ 2 - 1) :=
  texelIndex_bounds (7 / 2) (1 / 2) 2 2 (by decide) (by decide)

end Cubito
